import Mathlib

/-!
Shallow embedding of the cosign-demo proposal quorum engine.

The definitions below are translated from the TypeScript source:
  - `src/lib/relay.ts`   : address normalization, participant checks,
    signed-weight computation, signature envelope stripping;
  - `src/app/api/proposals/route.ts`          : proposal creation handler;
  - `src/app/api/proposals/[id]/sign/route.ts`   : signing handler;
  - `src/app/api/proposals/[id]/submit/route.ts` : submission-result handler;
  - `src/app/api/proposals/expire/route.ts`      : expiry sweep handler;
  - `CosignDemoApp.tsx` (client) : retryable-error classification and the
    deposit-submitter guard inside `submitProposal`.

The Supabase store is modelled as in-memory lists of rows; `update ... eq`
maps every row with a matching id, `insert` appends.  Timestamps are
integers (milliseconds), JSON signature maps are association lists with
unique keys, and cryptographic signature recovery (`recoverMessageAddress`
from viem) is passed in as a function parameter, since it is external to
the repository.
-/

/-- Enum `ProposalKind` from `src/lib/types.ts`. -/
inductive ProposalKind
  | create_session
  | operate
  | close_session
deriving DecidableEq, Repr

/-- Enum `ProposalStatus` from `src/lib/types.ts`. -/
inductive ProposalStatus
  | pending
  | ready
  | submitted
  | expired
  | failed
deriving DecidableEq, Repr

/-- Enum `RoomStatus` from `src/lib/types.ts` (`'open' | 'closed'`); `open` is a
Lean keyword, so the constructors are named `opened`/`closed`. -/
inductive RoomStatus
  | opened
  | closed
deriving DecidableEq, Repr

/-- One entry of an `RPCAppSessionAllocation[]` list: participant address,
asset symbol, and amount (a decimal string parsed with `BigInt` in the
source, hence an unbounded integer here). -/
structure Alloc where
  participant : String
  asset : String
  amount : Int
deriving DecidableEq, Repr

/-- The slice of the opaque `payload_json` JSON object that the embedded
code ever inspects: the `intent` tag and the allocation list. -/
structure PayloadJson where
  intent : Option String := none
  allocations : List Alloc := []
deriving DecidableEq, Repr

/-- Contents of `sdk_result_json` as written by the submit route:
`body.sdkResult ?? (body.error ? { error: body.error } : {})`. -/
inductive SdkResult
  | raw (blob : String)
  | errorResult (msg : String)
  | emptyResult
deriving DecidableEq, Repr

/-- Row type `Room` from `src/lib/types.ts` / `supabase/schema.sql`. -/
structure Room where
  id : String
  created_by : String
  participant_a : String
  participant_b : String
  chain_id : Int
  asset_symbol : String
  status : RoomStatus
  app_session_id : Option String
  created_at : Int
  expires_at : Int
deriving DecidableEq, Repr

/-- Row type `Proposal` from `src/lib/types.ts` / `supabase/schema.sql`.
`signatures_json` is a JSON object (unique keys); modelled as an
association list from signer key to signature, in insertion order. -/
structure Proposal where
  id : String
  room_id : String
  kind : ProposalKind
  payload_json : PayloadJson
  payload_hash : String
  required_quorum : Int
  signatures_json : List (String × String)
  status : ProposalStatus
  sdk_result_json : Option SdkResult
  created_at : Int
  expires_at : Int
deriving DecidableEq, Repr

/-- Variants of `event_payload` written by the three mutating routes. -/
inductive EventPayload
  | created (kind : ProposalKind) (requiredQuorum : Int)
  | signed (signedWeight : Nat) (requiredQuorum : Int) (status : ProposalStatus)
  | submitted (kind : ProposalKind) (status : ProposalStatus) (sdkResult : SdkResult)
deriving DecidableEq, Repr

/-- Row type `RoomEvent` from `src/lib/types.ts`. -/
structure RoomEvent where
  id : String
  room_id : String
  proposal_id : Option String
  actor : String
  event_type : String
  event_payload : EventPayload
  created_at : Int
deriving DecidableEq, Repr

/-- The relational store (Supabase tables used by the embedded routes). -/
structure Store where
  rooms : List Room
  proposals : List Proposal
  events : List RoomEvent
deriving DecidableEq, Repr

/-! ## String primitives

JavaScript string methods, implemented over the character list so that
they evaluate by kernel reduction (`String.toLower`, `String.startsWith`
and friends are built on `Substring` byte positions, which do not). -/

/-- JS `String.prototype.toLowerCase` (ASCII, as used on addresses/assets). -/
def toLowerStr (s : String) : String :=
  String.mk (s.data.map Char.toLower)

/-- JS `String.prototype.startsWith`. -/
def strStartsWith (s p : String) : Bool :=
  p.data.isPrefixOf s.data

/-- JS `String.prototype.slice(n)` / Lean `String.drop`, character-based. -/
def strDrop (s : String) (n : Nat) : String :=
  String.mk (s.data.drop n)

/-- JS `String.prototype.trim`. -/
def strTrim (s : String) : String :=
  String.mk (((s.data.dropWhile Char.isWhitespace).reverse.dropWhile
    Char.isWhitespace).reverse)

/-- String length in characters (JS `.length`). -/
def strLength (s : String) : Nat :=
  s.data.length

/-! ## `src/lib/relay.ts` -/

/-- Function `normalizeAddress` from `relay.ts`: `value.toLowerCase()`. -/
def normalizeAddress (value : String) : String :=
  toLowerStr value

/-- Function `isParticipant` from `relay.ts`. -/
def isParticipant (room : Room) (wallet : String) : Bool :=
  let target := normalizeAddress wallet
  normalizeAddress room.participant_a == target ||
    normalizeAddress room.participant_b == target

/-- Function `counterpartOf` from `relay.ts`. -/
def counterpartOf (room : Room) (wallet : String) : String :=
  let target := normalizeAddress wallet
  if normalizeAddress room.participant_a == target then room.participant_b
  else room.participant_a

/-- Function `calculateSignedWeight` from `relay.ts`: 50 per participant whose
normalized address appears among the normalized signer keys. -/
def calculateSignedWeight (room : Room) (signatures : List (String × String)) : Nat :=
  let signerAddresses := signatures.map (fun kv => normalizeAddress kv.1)
  (if signerAddresses.contains (normalizeAddress room.participant_a) then 50 else 0) +
    (if signerAddresses.contains (normalizeAddress room.participant_b) then 50 else 0)

/-- Function `stripWalletQuorumPrefix` from `relay.ts`; `none` models the thrown
`Signature must start with 0x` error. -/
def stripWalletQuorumPrefix (signature : String) : Option String :=
  let lower := toLowerStr signature
  if !(strStartsWith lower "0x") then none
  else if strStartsWith lower "0xa1" then some ("0x" ++ strDrop signature 4)
  else some signature

/-! ## Shared helpers for the route handlers -/

/-- One hexadecimal digit (`[0-9a-fA-F]`). -/
def isHexDigitChar (c : Char) : Bool :=
  c.isDigit || (decide ('a' ≤ c) && decide (c ≤ 'f')) ||
    (decide ('A' ≤ c) && decide (c ≤ 'F'))

/-- viem's `isAddress` syntactic check: `0x` followed by 40 hex digits
(the checksum branch for mixed-case inputs is not modelled; every address
in this development is lowercase, where viem accepts exactly this). -/
def isAddress (s : String) : Bool :=
  strStartsWith s "0x" && strLength s == 42 && (strDrop s 2).data.all isHexDigitChar

/-- The sign route's signature shape check, `/^0x[0-9a-fA-F]+$/`. -/
def isHexString (s : String) : Bool :=
  strStartsWith s "0x" && strDrop s 2 != "" && (strDrop s 2).data.all isHexDigitChar

/-- Lookup in a JSON-object-as-association-list (`signatures[wallet]`). -/
def recordGet (m : List (String × String)) (k : String) : Option String :=
  (m.find? (fun kv => kv.1 == k)).map (fun kv => kv.2)

/-- JavaScript key assignment `m[k] = v`: overwrite in place, else append. -/
def recordSet (m : List (String × String)) (k v : String) : List (String × String) :=
  if m.any (fun kv => kv.1 == k) then
    m.map (fun kv => if kv.1 == k then (k, v) else kv)
  else m ++ [(k, v)]

/-- JavaScript falsiness of `signatures[wallet]` (absent key or `""`). -/
def jsFalsyStr : Option String → Bool
  | none => true
  | some v => v == ""

/-- Render a `ProposalStatus` the way the TypeScript string enum reads. -/
def statusText : ProposalStatus → String
  | .pending => "pending"
  | .ready => "ready"
  | .submitted => "submitted"
  | .expired => "expired"
  | .failed => "failed"

/-- Render a `ProposalKind` the way the TypeScript string enum reads. -/
def kindText : ProposalKind → String
  | .create_session => "create_session"
  | .operate => "operate"
  | .close_session => "close_session"

/-- The update `supabase.from('proposals').update({status:'expired'}).eq('id', pid)`. -/
def markProposalExpired (s : Store) (pid : String) : Store :=
  { s with proposals :=
      s.proposals.map (fun p => if p.id == pid then { p with status := .expired } else p) }

/-- Whether `p.status` is one of the three terminal statuses. -/
def ProposalStatus.isTerminal : ProposalStatus → Bool
  | .submitted => true
  | .failed => true
  | .expired => true
  | _ => false

/-! ## `POST /api/proposals` (`src/app/api/proposals/route.ts`) -/

/-- Request body of the creation route (fields after JSON decoding; the
presence checks on lines 82-84 are absorbed by the record being total). -/
structure CreateBody where
  roomId : String
  actor : String
  kind : ProposalKind
  payloadJson : PayloadJson
  payloadHash : String
  requiredQuorum : Int
deriving DecidableEq, Repr

/-- Result of the creation route: `apiOk({proposal}, 201)` or
`apiError(message, code)`. -/
inductive CreateResult
  | ok (proposal : Proposal) (code : Nat)
  | err (msg : String) (code : Nat)
deriving DecidableEq, Repr

/-- The `POST` handler of `src/app/api/proposals/route.ts`.  `randomUUID`
and the clock are passed in (`newProposalId`, `newEventId`, `now`), and
`ttlDate()` (from `src/lib/constants.ts`, not under `src/`) is passed in
as the computed expiry timestamp `expiresAt`. -/
def proposalsPost (s : Store) (body : CreateBody)
    (newProposalId newEventId : String) (now expiresAt : Int) :
    CreateResult × Store :=
  if !(isAddress body.actor) then
    (.err "actor must be a valid EVM address" 400, s)
  else if !(0 < body.requiredQuorum) then
    (.err "requiredQuorum must be a positive integer" 400, s)
  else if !(strStartsWith body.payloadHash "0x" && strLength body.payloadHash == 66) then
    (.err "payloadHash must be a 32-byte hex string" 400, s)
  else
    match s.rooms.find? (fun r => r.id == body.roomId) with
    | none => (.err "Room not found" 404, s)
    | some room =>
      let actor := normalizeAddress body.actor
      if !(isParticipant room actor) then
        (.err "Actor is not a room participant" 403, s)
      else if s.proposals.any (fun p =>
          p.room_id == body.roomId && p.kind == body.kind &&
            (p.status == .pending || p.status == .ready)) then
        (.err ("An active " ++ kindText body.kind ++ " proposal already exists in this room") 400, s)
      else
        let proposal : Proposal :=
          { id := newProposalId
            room_id := body.roomId
            kind := body.kind
            payload_json := body.payloadJson
            payload_hash := body.payloadHash
            required_quorum := body.requiredQuorum
            signatures_json := []
            status := .pending
            sdk_result_json := none
            created_at := now
            expires_at := expiresAt }
        let ev : RoomEvent :=
          { id := newEventId
            room_id := body.roomId
            proposal_id := some proposal.id
            actor := actor
            event_type := "proposal_created"
            event_payload := .created body.kind body.requiredQuorum
            created_at := now }
        (.ok proposal 201,
          { s with proposals := s.proposals ++ [proposal], events := s.events ++ [ev] })

/-! ## `POST /api/proposals/[id]/sign` (`sign/route.ts`) -/

/-- Result of the sign route: `apiOk({proposal, signedWeight})` or
`apiError(message, code)`. -/
inductive SignResult
  | ok (proposal : Proposal) (signedWeight : Nat)
  | err (msg : String) (code : Nat)
deriving DecidableEq, Repr

/-- The `POST` handler of `src/app/api/proposals/[id]/sign/route.ts`.
`recover` models viem's `recoverMessageAddress` over the raw 32-byte hash
(`.error e` is a thrown recovery error, surfaced by the route's catch-all
as a 500).  `newEventId` stands for `randomUUID()`, `now` for
`Date.now()`. -/
def signPost (recover : String → String → Except String String) (s : Store)
    (id wallet signature : String) (newEventId : String) (now : Int) :
    SignResult × Store :=
  if !(isAddress wallet) then (.err "wallet must be a valid EVM address" 400, s)
  else if !(isHexString signature) then (.err "signature must be a hex string" 400, s)
  else
    match s.proposals.find? (fun p => p.id == id) with
    | none => (.err "Proposal not found" 404, s)
    | some proposal =>
      if proposal.status == .submitted || proposal.status == .failed ||
          proposal.status == .expired then
        (.err ("Cannot sign proposal with status " ++ statusText proposal.status) 400, s)
      else if proposal.expires_at < now then
        (.err "Proposal expired" 400, markProposalExpired s proposal.id)
      else
        match s.rooms.find? (fun r => r.id == proposal.room_id) with
        | none => (.err "Room not found" 404, s)
        | some room =>
          let wallet' := normalizeAddress wallet
          if !(isParticipant room wallet') then
            (.err "Signer is not a room participant" 403, s)
          else
            match stripWalletQuorumPrefix signature with
            | none => (.err "Signature must start with 0x" 500, s)
            | some rawSignature =>
              match recover proposal.payload_hash rawSignature with
              | .error e => (.err e 500, s)
              | .ok recovered =>
                if !(normalizeAddress recovered == wallet') then
                  (.err "Signature does not match wallet" 500, s)
                else
                  let signatures :=
                    if jsFalsyStr (recordGet proposal.signatures_json wallet') then
                      recordSet proposal.signatures_json wallet' signature
                    else proposal.signatures_json
                  let signedWeight := calculateSignedWeight room signatures
                  let status : ProposalStatus :=
                    if proposal.required_quorum ≤ (signedWeight : Int) then .ready else .pending
                  let updated := { proposal with signatures_json := signatures, status := status }
                  let ev : RoomEvent :=
                    { id := newEventId
                      room_id := room.id
                      proposal_id := some proposal.id
                      actor := wallet'
                      event_type := "proposal_signed"
                      event_payload := .signed signedWeight proposal.required_quorum status
                      created_at := now }
                  (.ok updated signedWeight,
                    { s with
                        proposals := s.proposals.map (fun p =>
                          if p.id == proposal.id then
                            { p with signatures_json := signatures, status := status }
                          else p)
                        events := s.events ++ [ev] })

/-! ## `POST /api/proposals/[id]/submit` (`submit/route.ts`) -/

/-- Values of `body.outcome` accepted by the submit route. -/
inductive Outcome
  | submitted
  | failed
deriving DecidableEq, Repr

/-- Result of the submit route. -/
inductive SubmitResult
  | ok (proposal : Proposal)
  | err (msg : String) (code : Nat)
deriving DecidableEq, Repr

/-- The `POST` handler of `src/app/api/proposals/[id]/submit/route.ts`.
`sdkResult?` is the opaque `body.sdkResult` blob, `errorMsg?` is
`body.error`; `outcome? = none` defaults to `submitted` (line 63). -/
def submitPost (s : Store) (id wallet : String) (outcome? : Option Outcome)
    (sdkResult? : Option String) (appSessionId? : Option String)
    (errorMsg? : Option String) (newEventId : String) (now : Int) :
    SubmitResult × Store :=
  if !(isAddress wallet) then (.err "wallet must be a valid EVM address" 400, s)
  else
    match s.proposals.find? (fun p => p.id == id) with
    | none => (.err "Proposal not found" 404, s)
    | some proposal =>
      if proposal.expires_at < now then
        (.err "Proposal expired" 400, markProposalExpired s proposal.id)
      else
        match s.rooms.find? (fun r => r.id == proposal.room_id) with
        | none => (.err "Room not found" 404, s)
        | some room =>
          let wallet' := normalizeAddress wallet
          if !(isParticipant room wallet') then
            (.err "Actor is not a room participant" 403, s)
          else
            let outcome := outcome?.getD .submitted
            if outcome == .submitted && !(proposal.status == .ready) then
              (.err ("Proposal must be ready before submission. Current status: " ++
                statusText proposal.status) 400, s)
            else
              let nextStatus : ProposalStatus :=
                if outcome == .submitted then .submitted else .failed
              let sdkResult : SdkResult :=
                match sdkResult? with
                | some r => .raw r
                | none =>
                  match errorMsg? with
                  | some e => .errorResult e
                  | none => .emptyResult
              let s1 : Store :=
                { s with proposals := s.proposals.map (fun p =>
                    if p.id == proposal.id then
                      { p with status := nextStatus, sdk_result_json := some sdkResult }
                    else p) }
              let hasAppSessionId :=
                match appSessionId? with
                | some a => a != ""
                | none => false
              let s2 : Store :=
                if outcome == .submitted && proposal.kind == .create_session &&
                    hasAppSessionId then
                  { s1 with rooms := s1.rooms.map (fun r =>
                      if r.id == room.id then { r with app_session_id := appSessionId? } else r) }
                else s1
              let s3 : Store :=
                if outcome == .submitted && proposal.kind == .close_session then
                  { s2 with rooms := s2.rooms.map (fun r =>
                      if r.id == room.id then { r with status := .closed } else r) }
                else s2
              let ev : RoomEvent :=
                { id := newEventId
                  room_id := room.id
                  proposal_id := some proposal.id
                  actor := wallet'
                  event_type :=
                    if outcome == .submitted then "proposal_submitted" else "proposal_failed"
                  event_payload := .submitted proposal.kind nextStatus sdkResult
                  created_at := now }
              (.ok { proposal with status := nextStatus, sdk_result_json := some sdkResult },
                { s3 with events := s3.events ++ [ev] })

/-! ## `POST /api/proposals/expire` (`expire/route.ts`) -/

/-- Result of the expiry sweep route: `apiOk({expiredCount})` or
`apiError(message, code)`. -/
inductive ExpireResult
  | ok (expiredCount : Nat)
  | err (msg : String) (code : Nat)
deriving DecidableEq, Repr

/-- The row transformation of the sweep's conditional update:
`update({status:'expired'}).in('status',['pending','ready']).lt('expires_at', now)`. -/
def sweepProposal (now : Int) (p : Proposal) : Proposal :=
  if (p.status == .pending || p.status == .ready) && p.expires_at < now then
    { p with status := .expired }
  else p

/-- Whether a proposal row matches the sweep's filter. -/
def sweepMatches (now : Int) (p : Proposal) : Bool :=
  (p.status == .pending || p.status == .ready) && p.expires_at < now

/-- Bearer-token extraction of the expire route (lines 9-12): present iff
the `authorization` header case-insensitively starts with `bearer `. -/
def bearerTokenOf (authorization? : Option String) : Option String :=
  match authorization? with
  | some a =>
    if strStartsWith (toLowerStr a) "bearer " then some (strTrim (strDrop a 7)) else none
  | none => none

/-- The `POST` handler of `src/app/api/proposals/expire/route.ts`.
`cronSecret` is `process.env.CRON_SECRET` (`none` = unset; a set empty
string is falsy in the JS guard, exactly as modelled), `xCronSecret?` the
`x-cron-secret` header, `authorization?` the `authorization` header
(`none` = absent). -/
def expirePost (cronSecret xCronSecret? authorization? : Option String)
    (s : Store) (now : Int) : ExpireResult × Store :=
  let bearerToken : Option String := bearerTokenOf authorization?
  let unauthorized : Bool :=
    match cronSecret with
    | some sec => sec != "" && xCronSecret? != some sec && bearerToken != some sec
    | none => false
  if unauthorized then (.err "Unauthorized" 401, s)
  else
    (.ok (s.proposals.filter (sweepMatches now)).length,
      { s with proposals := s.proposals.map (sweepProposal now) })

/-! ## Client-side logic from `CosignDemoApp.tsx` -/

/-- Substring containment (`String.prototype.includes`). -/
def strContainsSub (hay needle : String) : Bool :=
  (List.range (hay.data.length + 1)).any
    (fun i => needle.data.isPrefixOf (hay.data.drop i))

/-- Function `isRetryableSubmitError` from `CosignDemoApp.tsx` lines 291-303:
connection-class phrases in the lowercased error message. -/
def isRetryableSubmitError (message : String) : Bool :=
  let lower := toLowerStr message
  strContainsSub lower "not connected" ||
    strContainsSub lower "connection closed" ||
    strContainsSub lower "socket closed" ||
    strContainsSub lower "network error" ||
    strContainsSub lower "websocket" ||
    strContainsSub lower "ws closed"

/-- Function `isMissingHomeChannelForDeposit` from `CosignDemoApp.tsx` lines
305-315. -/
def isMissingHomeChannelForDeposit (message : String) : Bool :=
  let lower := toLowerStr message
  strContainsSub lower "state.homechannelid is required for packing" ||
    strContainsSub lower "no channel exists for asset" ||
    strContainsSub lower "missing home channel id" ||
    strContainsSub lower "missing_home_channel"

/-- The catch block of `submitProposal` (lines 1738-1767): whether a
`outcome: 'failed'` report is POSTed for an error with this message
(`recoverable = transient || missingHomeChannel`; posted iff not
recoverable). -/
def submitFailurePosts (message : String) : Bool :=
  !(isRetryableSubmitError message || isMissingHomeChannelForDeposit message)

/-- The client's failure path composed with the submit endpoint: on a
non-recoverable error, `POST /api/proposals/[id]/submit` with
`outcome: 'failed'` and `error: message`; on a recoverable error no
request is made and the store is untouched. -/
def clientHandleSubmitError (s : Store) (proposalId wallet message : String)
    (newEventId : String) (now : Int) : Store :=
  if submitFailurePosts message then
    (submitPost s proposalId wallet (some .failed) none none (some message) newEventId now).2
  else s

/-- Key of the `baseByParticipant` map in `submitProposal` /
`activeDepositSubmitter`:
`normalizeAddress(participant) + '::' + asset.toLowerCase()`. -/
def allocKey (a : Alloc) : String :=
  normalizeAddress a.participant ++ "::" ++ toLowerStr a.asset

/-- JavaScript `new Map(entries)` lookup: the last entry with the key
wins. -/
def mapGetLast (entries : List (String × Int)) (k : String) : Option Int :=
  (entries.reverse.find? (fun kv => kv.1 == k)).map (fun kv => kv.2)

/-- Map `baseByParticipant` built from a base allocation list. -/
def baseByParticipant (base : List Alloc) : List (String × Int) :=
  base.map (fun a => (allocKey a, a.amount))

/-- The comparison `BigInt(allocation.amount) > currentAmount` shared by
`submitProposal` and `activeDepositSubmitter`: the payload allocation
strictly exceeds the current amount for its participant/asset key. -/
def incAlloc (base : List Alloc) (a : Alloc) : Bool :=
  decide (((mapGetLast (baseByParticipant base) (allocKey a)).getD 0) < a.amount)

/-- Loop body of the `positiveParticipants` accumulation in
`submitProposal` (lines 1668-1678): append the normalized participant of
an increasing allocation unless already collected (JS `Set` insertion
semantics). -/
def posStep (base : List Alloc) (acc : List String) (a : Alloc) : List String :=
  if incAlloc base a then
    let part := normalizeAddress a.participant
    if acc.contains part then acc else acc ++ [part]
  else acc

/-- The `positiveParticipants` set accumulated over the payload list. -/
def positiveParticipants (base payload : List Alloc) : List String :=
  payload.foldl (posStep base) []

/-- The depositor guard of `submitProposal` (lines 1680-1685): the error
thrown before the SDK call, if any.  When `positiveParticipants` has
exactly one element and the submitting wallet is not that participant,
the submission is rejected; in every other case (including zero or
several increasing participants) no error is thrown and submission
proceeds. -/
def depositGuardError (base payload : List Alloc) (walletAddress : String) :
    Option String :=
  let pos := positiveParticipants base payload
  if pos.length == 1 && !(pos.contains (normalizeAddress walletAddress)) then
    some "Only the depositing participant should submit this deposit proposal."
  else none

/-- Function `activeDepositSubmitter` (lines 1205-1235): the first payload
allocation whose amount strictly exceeds the current amount, normalized
(the loop breaks at the first hit). -/
def activeDepositSubmitter (base payload : List Alloc) : Option String :=
  (payload.find? (incAlloc base)).map (fun a => normalizeAddress a.participant)

/-! ## Concrete fixtures used by witnesses and counterexamples -/

/-- Lowercase EVM-style address of participant A in the fixtures. -/
def addrA : String := "0xaaaaaaaaaaaaaaaaaaaaaaaaaaaaaaaaaaaaaaaa"

/-- Lowercase EVM-style address of participant B in the fixtures. -/
def addrB : String := "0xbbbbbbbbbbbbbbbbbbbbbbbbbbbbbbbbbbbbbbbb"

/-- Lowercase EVM-style address of a non-participant in the fixtures. -/
def addrC : String := "0xcccccccccccccccccccccccccccccccccccccccc"

/-- A 32-byte payload hash fixture (66 characters). -/
def hash0 : String :=
  "0x1111111111111111111111111111111111111111111111111111111111111111"

/-- An open two-party room fixture. -/
def room0 : Room :=
  { id := "room-1"
    created_by := addrA
    participant_a := addrA
    participant_b := addrB
    chain_id := 11155111
    asset_symbol := "usdc"
    status := .opened
    app_session_id := none
    created_at := 0
    expires_at := 1000000 }

/-! ## C3: signed weight is 50 per distinct matching participant -/

/-- The quantity named in the spec's weight rule: the number of distinct
normalized signer keys equal to the room's participant A or B. -/
def matchingSignerCount (room : Room) (signatures : List (String × String)) : Nat :=
  (((signatures.map (fun kv => normalizeAddress kv.1)).toFinset).filter
    (fun k => k = normalizeAddress room.participant_a ∨
      k = normalizeAddress room.participant_b)).card

/-- C3: for every room whose two participants are distinct after
normalization (the invariant the schema's room creation establishes) and
every signature map, `calculateSignedWeight` equals 50 times the number
of distinct normalized signer keys matching participant A or B; keys
matching neither participant contribute nothing, so the weight is always
0, 50 or 100 however many entries the map holds. -/
theorem signed_weight_counts_matching_participants (room : Room)
    (signatures : List (String × String))
    (hab : normalizeAddress room.participant_a ≠ normalizeAddress room.participant_b) :
    calculateSignedWeight room signatures = 50 * matchingSignerCount room signatures ∧
      (calculateSignedWeight room signatures = 0 ∨
        calculateSignedWeight room signatures = 50 ∨
        calculateSignedWeight room signatures = 100) := by
  unfold calculateSignedWeight matchingSignerCount
  set l := signatures.map (fun kv => normalizeAddress kv.1) with hl
  set A := normalizeAddress room.participant_a with hA
  set B := normalizeAddress room.participant_b with hB
  have hfilter :
      (l.toFinset.filter (fun k => k = A ∨ k = B)).card =
        (if A ∈ l.toFinset then 1 else 0) + (if B ∈ l.toFinset then 1 else 0) := by
    rw [Finset.filter_or, Finset.filter_eq', Finset.filter_eq',
      Finset.card_union_of_disjoint]
    · by_cases hAm : A ∈ l.toFinset <;> by_cases hBm : B ∈ l.toFinset <;>
        simp [hAm, hBm]
    · by_cases hAm : A ∈ l.toFinset <;> by_cases hBm : B ∈ l.toFinset <;>
        simp [hAm, hBm, Finset.disjoint_singleton_left, Ne.symm hab]
  have hcontA : l.contains A = true ↔ A ∈ l := by
    simp [List.contains]
  have hcontB : l.contains B = true ↔ B ∈ l := by
    simp [List.contains]
  by_cases hAm : A ∈ l <;> by_cases hBm : B ∈ l <;>
    simp_all [List.mem_toFinset]

/-- Witness for C3 at a concrete room and map: both participants signed
plus a stray non-participant key, weight 100 = 50 · 2. -/
theorem signed_weight_counts_matching_participants_witness :
    normalizeAddress room0.participant_a ≠ normalizeAddress room0.participant_b ∧
      calculateSignedWeight room0 [(addrA, "0xa1"), (addrB, "0xb2"), (addrC, "0xc3")] =
        50 * matchingSignerCount room0 [(addrA, "0xa1"), (addrB, "0xb2"), (addrC, "0xc3")] := by
  refine ⟨by decide, ?_⟩
  exact (signed_weight_counts_matching_participants room0
    [(addrA, "0xa1"), (addrB, "0xb2"), (addrC, "0xc3")] (by decide)).1

/-! ## C9: participant checks and counterpart lookup -/

/-- C9 counterexample: `counterpartOf` does not fail on a non-participant
input; for the wallet `addrC`, which is not a participant of `room0`, it
returns `participant_a` — a participant — contradicting the claim that
counterpart is undefined (never a participant) for a non-participant. -/
theorem counterpartOf_nonparticipant_counterexample :
    isParticipant room0 addrC = false ∧
      counterpartOf room0 addrC = room0.participant_a := by
  decide

/-- C9 amended: `isParticipant` is defined purely by normalized equality
against participant A/B, and `counterpartOf` is total: it returns
participant B exactly when the normalized input equals normalized
participant A, and participant A in every other case — including
non-participant inputs, for which it therefore still returns a
participant rather than failing. -/
theorem participant_checks_normalized (room : Room) (wallet : String) :
    (isParticipant room wallet = true ↔
      (normalizeAddress room.participant_a = normalizeAddress wallet ∨
        normalizeAddress room.participant_b = normalizeAddress wallet)) ∧
      (normalizeAddress room.participant_a = normalizeAddress wallet →
        counterpartOf room wallet = room.participant_b) ∧
      (normalizeAddress room.participant_a ≠ normalizeAddress wallet →
        counterpartOf room wallet = room.participant_a) := by
  refine ⟨?_, ?_, ?_⟩
  · simp [isParticipant]
  · intro h
    simp [counterpartOf, h]
  · intro h
    simp [counterpartOf, h]

/-- Witness for C9's amended theorem at `room0` and participant A. -/
theorem participant_checks_normalized_witness :
    normalizeAddress room0.participant_a = normalizeAddress addrA ∧
      counterpartOf room0 addrA = room0.participant_b := by
  refine ⟨by decide, ?_⟩
  exact (participant_checks_normalized room0 addrA).2.1 (by decide)

/-! ## C10: expiry-sweep authorization -/

/-- C10: the expire route answers `Unauthorized` exactly when
`CRON_SECRET` is set (to a non-empty value — an empty value is falsy in
the JS guard and behaves as unset) and the request supplies neither a
matching `x-cron-secret` header nor a matching bearer token; a rejected
request leaves the store untouched, and with `CRON_SECRET` unset every
caller reaches the sweep, which expires exactly the pending/ready
proposals past their expiry. -/
theorem expire_auth_characterization (cronSecret xCron auth : Option String)
    (s : Store) (now : Int) :
    ((expirePost cronSecret xCron auth s now).1 = .err "Unauthorized" 401 ↔
      ∃ sec, cronSecret = some sec ∧ sec ≠ "" ∧ xCron ≠ some sec ∧
        bearerTokenOf auth ≠ some sec) ∧
      ((expirePost cronSecret xCron auth s now).1 = .err "Unauthorized" 401 →
        (expirePost cronSecret xCron auth s now).2 = s) ∧
      ((expirePost none xCron auth s now).1 =
          .ok (s.proposals.filter (sweepMatches now)).length ∧
        (expirePost none xCron auth s now).2.proposals =
          s.proposals.map (sweepProposal now)) := by
  refine ⟨?_, ?_, ?_, ?_⟩
  · cases cronSecret with
    | none => simp [expirePost]
    | some sec =>
      by_cases h1 : sec = "" <;> by_cases h2 : xCron = some sec <;>
        by_cases h3 : bearerTokenOf auth = some sec <;>
          simp [expirePost, h1, h2, h3]
  · cases cronSecret with
    | none => simp [expirePost]
    | some sec =>
      by_cases h1 : sec = "" <;> by_cases h2 : xCron = some sec <;>
        by_cases h3 : bearerTokenOf auth = some sec <;>
          simp [expirePost, h1, h2, h3]
  · simp [expirePost]
  · simp [expirePost]

/-- Witness for C10: with `CRON_SECRET = "s3cret"` and no credentials the
route rejects; with it unset, an anonymous call runs the sweep over a
one-proposal store. -/
theorem expire_auth_characterization_witness :
    (expirePost (some "s3cret") none none ⟨[room0], [], []⟩ 5).1 =
        .err "Unauthorized" 401 ∧
      (expirePost none none none ⟨[room0], [], []⟩ 5).1 = .ok 0 := by
  constructor
  · exact (expire_auth_characterization (some "s3cret") none none ⟨[room0], [], []⟩ 5).1.mpr
      ⟨"s3cret", rfl, by decide, by decide, by decide⟩
  · exact (expire_auth_characterization none none none ⟨[room0], [], []⟩ 5).2.2.1


/-! ## C6: deposit submitter identification -/

/-- Scanning with `find?` returns the head of the filtered list. -/
theorem find?_eq_head?_filter {α : Type} (p : α → Bool) (l : List α) :
    l.find? p = (l.filter p).head? := by
  induction l with
  | nil => rfl
  | cons a rest ih =>
    rw [List.find?_cons, List.filter_cons]
    by_cases h : p a = true
    · simp [h]
    · simp only [Bool.not_eq_true] at h
      rw [h]
      simp only [if_false, Bool.false_eq_true]
      exact ih

/-- Step `posStep` only ever appends to its accumulator. -/
theorem posStep_isPrefixOf (base : List Alloc) (acc : List String) (a : Alloc) :
    acc <+: posStep base acc a := by
  unfold posStep
  by_cases h : incAlloc base a = true
  · simp only [h, if_true]
    by_cases hc : acc.contains (normalizeAddress a.participant) = true
    · simp only [hc, if_true]
      exact List.prefix_refl acc
    · simp only [hc]
      exact List.prefix_append acc _
  · simp only [Bool.not_eq_true] at h
    simp [h]

/-- The accumulator is a prefix of the finished `posStep` fold. -/
theorem posFold_isPrefixOf (base : List Alloc) (payload : List Alloc) :
    ∀ acc : List String, acc <+: payload.foldl (posStep base) acc := by
  induction payload with
  | nil => intro acc; exact List.prefix_refl acc
  | cons a rest ih =>
    intro acc
    rw [List.foldl_cons]
    exact List.IsPrefix.trans (posStep_isPrefixOf base acc a) (ih _)

/-- If `positiveParticipants` is a singleton `[d]`, the first increasing
allocation found by the `activeDepositSubmitter` scan belongs to `d`. -/
theorem posFold_singleton (base : List Alloc) (payload : List Alloc) (d : String)
    (h : positiveParticipants base payload = [d]) :
    ∃ a, payload.find? (incAlloc base) = some a ∧
      normalizeAddress a.participant = d := by
  unfold positiveParticipants at h
  induction payload with
  | nil => simp at h
  | cons a rest ih =>
    by_cases hinc : incAlloc base a = true
    · refine ⟨a, by rw [List.find?_cons]; simp [hinc], ?_⟩
      rw [List.foldl_cons] at h
      have hstep : posStep base [] a = [normalizeAddress a.participant] := by
        simp [posStep, hinc, List.contains]
      rw [hstep] at h
      have hpre := posFold_isPrefixOf base rest [normalizeAddress a.participant]
      rw [h] at hpre
      obtain ⟨t, ht⟩ := hpre
      simp only [List.cons_append, List.nil_append, List.cons.injEq] at ht
      exact ht.1
    · simp only [Bool.not_eq_true] at hinc
      rw [List.foldl_cons] at h
      have hstep : posStep base [] a = [] := by simp [posStep, hinc]
      rw [hstep] at h
      obtain ⟨a0, hfind, hnorm⟩ := ih h
      refine ⟨a0, ?_, hnorm⟩
      rw [List.find?_cons]
      simp [hinc, hfind]

/-- C6 counterexample: in a deposit payload where BOTH participants'
allocations strictly increase over the base, the code raises no
ambiguous-or-missing-depositor error for any submitter — the guard
returns no error and submission proceeds (`positiveParticipants.size`
is 2, so the only thrown message is skipped). -/
theorem deposit_guard_ambiguous_counterexample :
    (positiveParticipants [⟨addrA, "usdc", 0⟩, ⟨addrB, "usdc", 0⟩]
        [⟨addrA, "usdc", 5⟩, ⟨addrB, "usdc", 5⟩]).length = 2 ∧
      depositGuardError [⟨addrA, "usdc", 0⟩, ⟨addrB, "usdc", 0⟩]
          [⟨addrA, "usdc", 5⟩, ⟨addrB, "usdc", 5⟩] addrA = none ∧
      depositGuardError [⟨addrA, "usdc", 0⟩, ⟨addrB, "usdc", 0⟩]
          [⟨addrA, "usdc", 5⟩, ⟨addrB, "usdc", 5⟩] addrC = none := by
  decide

/-- C6 amended: when exactly one participant's allocation strictly
increases over the current session allocations, `submitProposal`
identifies that participant (the `activeDepositSubmitter` scan returns
it) and throws the only-depositing-participant error for any other
submitting wallet, proceeding for the depositor itself; but when zero or
more than one participant's allocation increases, the guard raises no
error at all and submission proceeds — there is no
ambiguous-or-missing-depositor failure in the code. -/
theorem deposit_submitter_guard (base payload : List Alloc) (wallet : String) :
    (∀ d, positiveParticipants base payload = [d] →
      activeDepositSubmitter base payload = some d ∧
        (normalizeAddress wallet ≠ d →
          depositGuardError base payload wallet =
            some "Only the depositing participant should submit this deposit proposal.") ∧
        (normalizeAddress wallet = d →
          depositGuardError base payload wallet = none)) ∧
      ((positiveParticipants base payload).length ≠ 1 →
        depositGuardError base payload wallet = none) := by
  constructor
  · intro d hd
    obtain ⟨a0, hfind, hnorm⟩ := posFold_singleton base payload d hd
    refine ⟨by simp [activeDepositSubmitter, hfind, hnorm], ?_, ?_⟩
    · intro hne
      simp [depositGuardError, hd, List.contains, hne]
    · intro heq
      simp [depositGuardError, hd, List.contains, heq]
  · intro hlen
    simp [depositGuardError, hlen]

/-- Witness for C6's amended theorem: only A's allocation increases, so A
is identified as depositor and a submission by B is rejected with the
only-depositing-participant error. -/
theorem deposit_submitter_guard_witness :
    positiveParticipants [⟨addrA, "usdc", 0⟩, ⟨addrB, "usdc", 0⟩]
        [⟨addrA, "usdc", 5⟩, ⟨addrB, "usdc", 0⟩] = [addrA] ∧
      activeDepositSubmitter [⟨addrA, "usdc", 0⟩, ⟨addrB, "usdc", 0⟩]
          [⟨addrA, "usdc", 5⟩, ⟨addrB, "usdc", 0⟩] = some addrA ∧
      depositGuardError [⟨addrA, "usdc", 0⟩, ⟨addrB, "usdc", 0⟩]
          [⟨addrA, "usdc", 5⟩, ⟨addrB, "usdc", 0⟩] addrB =
        some "Only the depositing participant should submit this deposit proposal." := by
  have h := (deposit_submitter_guard [⟨addrA, "usdc", 0⟩, ⟨addrB, "usdc", 0⟩]
    [⟨addrA, "usdc", 5⟩, ⟨addrB, "usdc", 0⟩] addrB).1 addrA (by decide)
  exact ⟨by decide, h.1, h.2.1 (by decide)⟩

/-! ## Shared lemmas about id-keyed conditional updates -/

/-- Looking up an id after a conditional update on that id returns the
updated row, provided the update preserves ids. -/
theorem find?_id_map_update (l : List Proposal) (pid : String)
    (g : Proposal → Proposal) (hg : ∀ q, (g q).id = q.id) :
    (l.map (fun q => if q.id == pid then g q else q)).find? (fun q => q.id == pid) =
      (l.find? (fun q => q.id == pid)).map g := by
  rw [List.find?_map]
  have hcomp :
      ((fun q : Proposal => q.id == pid) ∘ (fun q => if q.id == pid then g q else q)) =
        (fun q : Proposal => q.id == pid) := by
    funext q
    by_cases h : q.id == pid
    · simp [Function.comp, h, hg]
    · simp [Function.comp, h]
  rw [hcomp]
  cases hf : l.find? (fun q => q.id == pid) with
  | none => rfl
  | some q =>
    have hq := List.find?_some hf
    show some (if q.id == pid then g q else q) = some (g q)
    rw [if_pos hq]

/-! ## C5: transient vs rejected submission failures -/

/-- A ready `operate` proposal fixture signed by both participants. -/
def prop0 : Proposal :=
  { id := "prop-1"
    room_id := "room-1"
    kind := .operate
    payload_json := {}
    payload_hash := hash0
    required_quorum := 100
    signatures_json := [(addrA, "0xaa11"), (addrB, "0xbb22")]
    status := .ready
    sdk_result_json := none
    created_at := 0
    expires_at := 1000000 }

/-- Store fixture holding `room0` and the ready proposal `prop0`. -/
def store0 : Store :=
  { rooms := [room0], proposals := [prop0], events := [] }

/-- C5 counterexample: `missing_home_channel` is NOT a connection-class
message, yet the client treats it as recoverable — no failed outcome is
posted and the proposal stays `ready` — contradicting the claim that
every non-connection-class failure moves the proposal to `failed`. -/
theorem submit_failure_classification_counterexample :
    isRetryableSubmitError "missing_home_channel" = false ∧
      prop0.status = .ready ∧
      clientHandleSubmitError store0 "prop-1" addrA "missing_home_channel" "ev-9" 500 =
        store0 := by
  refine ⟨by decide, by decide, ?_⟩
  have hmiss : isMissingHomeChannelForDeposit "missing_home_channel" = true := by decide
  simp [clientHandleSubmitError, submitFailurePosts, hmiss]

/-- C5 amended: a connection-class (transient) failure leaves the store
untouched — the proposal remains `ready` and no failed outcome is
recorded — and so does a missing-home-channel deposit failure (the
second recoverable class, which the original claim omitted); every other
failure message is reported with `outcome: 'failed'`, moving the proposal
to `failed` with the error recorded in `sdk_result_json`. -/
theorem submit_failure_classification (s : Store) (pid wallet msg eid : String)
    (now : Int) (p : Proposal) (room : Room)
    (hp : s.proposals.find? (fun q => q.id == pid) = some p)
    (hexp : ¬ p.expires_at < now)
    (hroom : s.rooms.find? (fun r => r.id == p.room_id) = some room)
    (haddr : isAddress wallet = true)
    (hpart : isParticipant room (normalizeAddress wallet) = true) :
    (isRetryableSubmitError msg = true →
      clientHandleSubmitError s pid wallet msg eid now = s) ∧
      (isMissingHomeChannelForDeposit msg = true →
        clientHandleSubmitError s pid wallet msg eid now = s) ∧
      (isRetryableSubmitError msg = false →
        isMissingHomeChannelForDeposit msg = false →
        (clientHandleSubmitError s pid wallet msg eid now).proposals.find?
            (fun q => q.id == pid) =
          some { p with status := .failed,
                        sdk_result_json := some (.errorResult msg) }) := by
  refine ⟨?_, ?_, ?_⟩
  · intro hr
    simp [clientHandleSubmitError, submitFailurePosts, hr]
  · intro hm
    simp [clientHandleSubmitError, submitFailurePosts, hm]
  · intro hr hm
    have hpid : p.id = pid := by
      have := List.find?_some hp
      simpa using this
    have hout : (Outcome.failed == Outcome.submitted) = false := rfl
    simp only [clientHandleSubmitError, submitFailurePosts, hr, hm, Bool.or_self,
      Bool.not_false, if_true]
    simp only [submitPost, haddr, Bool.not_true, Bool.false_eq_true, if_false,
      hp, hexp, hroom, hpart, Option.getD_some, hout, Bool.false_and,
      Bool.and_false]
    simp only [hpid]
    rw [find?_id_map_update s.proposals pid
      (fun q => { q with status := .failed, sdk_result_json := some (.errorResult msg) })
      (fun q => rfl), hp]
    simp [hpid]

/-- Witness for C5's amended theorem on `store0`: a connection-closed
message leaves the store untouched; an allowance message flips the
proposal to `failed` with the error recorded. -/
theorem submit_failure_classification_witness :
    clientHandleSubmitError store0 "prop-1" addrA
        "ERR: connection closed by remote" "ev-9" 500 = store0 ∧
      (clientHandleSubmitError store0 "prop-1" addrA
            "allowance is not sufficient" "ev-9" 500).proposals.find?
          (fun q => q.id == "prop-1") =
        some { prop0 with status := .failed,
                          sdk_result_json :=
                            some (.errorResult "allowance is not sufficient") } := by
  constructor
  · exact (submit_failure_classification store0 "prop-1" addrA
      "ERR: connection closed by remote" "ev-9" 500 prop0 room0 (by decide)
      (by decide) (by decide) (by decide) (by decide)).1 (by decide)
  · exact (submit_failure_classification store0 "prop-1" addrA
      "allowance is not sufficient" "ev-9" 500 prop0 room0 (by decide)
      (by decide) (by decide) (by decide) (by decide)).2.2 (by decide) (by decide)

/-! ## C1 and C8: proposal creation -/

/-- The row `proposalsPost` inserts on success. -/
def newProposalRow (body : CreateBody) (npid : String) (now expAt : Int) : Proposal :=
  { id := npid
    room_id := body.roomId
    kind := body.kind
    payload_json := body.payloadJson
    payload_hash := body.payloadHash
    required_quorum := body.requiredQuorum
    signatures_json := []
    status := .pending
    sdk_result_json := none
    created_at := now
    expires_at := expAt }

/-- Success path of the creation route: with valid inputs, a found room,
a participating actor and no active same-kind proposal, the handler
returns 201 with the new `pending` row appended. -/
theorem proposalsPost_success (s : Store) (body : CreateBody)
    (npid neid : String) (now expAt : Int) (room : Room)
    (haddr : isAddress body.actor = true)
    (hq : 0 < body.requiredQuorum)
    (hhash : (strStartsWith body.payloadHash "0x" && strLength body.payloadHash == 66) = true)
    (hroom : s.rooms.find? (fun r => r.id == body.roomId) = some room)
    (hpart : isParticipant room (normalizeAddress body.actor) = true)
    (hnoactive : s.proposals.any (fun p =>
      p.room_id == body.roomId && p.kind == body.kind &&
        (p.status == .pending || p.status == .ready)) = false) :
    (proposalsPost s body npid neid now expAt).1 =
        .ok (newProposalRow body npid now expAt) 201 ∧
      (proposalsPost s body npid neid now expAt).2.proposals =
        s.proposals ++ [newProposalRow body npid now expAt] := by
  constructor <;>
    simp [proposalsPost, newProposalRow, haddr, hq, hhash, hroom, hpart, hnoactive]

/-- C1: while some proposal of the same room and kind is `pending` or
`ready`, creation fails with the duplicate-active-proposal error and the
store is unchanged; once every same-room same-kind proposal is terminal
(`submitted`, `failed` or `expired`), creation succeeds and appends a new
proposal stored with status `pending`. -/
theorem duplicate_active_proposal (s : Store) (body : CreateBody)
    (npid neid : String) (now expAt : Int) (room : Room)
    (haddr : isAddress body.actor = true)
    (hq : 0 < body.requiredQuorum)
    (hhash : (strStartsWith body.payloadHash "0x" && strLength body.payloadHash == 66) = true)
    (hroom : s.rooms.find? (fun r => r.id == body.roomId) = some room)
    (hpart : isParticipant room (normalizeAddress body.actor) = true) :
    ((∃ p ∈ s.proposals, p.room_id = body.roomId ∧ p.kind = body.kind ∧
        (p.status = .pending ∨ p.status = .ready)) →
      (proposalsPost s body npid neid now expAt).1 =
          .err ("An active " ++ kindText body.kind ++
            " proposal already exists in this room") 400 ∧
        (proposalsPost s body npid neid now expAt).2 = s) ∧
      ((∀ p ∈ s.proposals, p.room_id = body.roomId → p.kind = body.kind →
          p.status.isTerminal = true) →
        (proposalsPost s body npid neid now expAt).1 =
            .ok (newProposalRow body npid now expAt) 201 ∧
          (newProposalRow body npid now expAt).status = .pending ∧
          (proposalsPost s body npid neid now expAt).2.proposals =
            s.proposals ++ [newProposalRow body npid now expAt]) := by
  constructor
  · intro hactive
    have hany : s.proposals.any (fun p =>
        p.room_id == body.roomId && p.kind == body.kind &&
          (p.status == .pending || p.status == .ready)) = true := by
      obtain ⟨p, hmem, h1, h2, h3⟩ := hactive
      rw [List.any_eq_true]
      refine ⟨p, hmem, ?_⟩
      rcases h3 with h | h <;> simp [h1, h2, h]
    constructor <;> simp [proposalsPost, haddr, hq, hhash, hroom, hpart, hany]
  · intro hterm
    have hnoactive : s.proposals.any (fun p =>
        p.room_id == body.roomId && p.kind == body.kind &&
          (p.status == .pending || p.status == .ready)) = false := by
      rw [Bool.eq_false_iff]
      intro hany
      rw [List.any_eq_true] at hany
      obtain ⟨p, hmem, hcond⟩ := hany
      simp only [Bool.and_eq_true, beq_iff_eq, Bool.or_eq_true] at hcond
      obtain ⟨⟨h1, h2⟩, h3⟩ := hcond
      have := hterm p hmem h1 h2
      rcases h3 with h | h <;> rw [h] at this <;> simp [ProposalStatus.isTerminal] at this
    have hsucc := proposalsPost_success s body npid neid now expAt room
      haddr hq hhash hroom hpart hnoactive
    exact ⟨hsucc.1, rfl, hsucc.2⟩

/-- Witness for C1: in a store whose only `operate` proposal for `room0`
is `ready`, a second `operate` creation is rejected; in a store where it
is `submitted`, creation succeeds with a `pending` row. -/
theorem duplicate_active_proposal_witness :
    (proposalsPost store0
          ⟨"room-1", addrA, .operate, {}, hash0, 100⟩ "prop-9" "ev-9" 5 2000).1 =
        .err "An active operate proposal already exists in this room" 400 ∧
      (proposalsPost ⟨[room0], [{ prop0 with status := .submitted }], []⟩
          ⟨"room-1", addrA, .operate, {}, hash0, 100⟩ "prop-9" "ev-9" 5 2000).1 =
        .ok (newProposalRow ⟨"room-1", addrA, .operate, {}, hash0, 100⟩ "prop-9" 5 2000) 201 := by
  constructor
  · exact ((duplicate_active_proposal store0
      ⟨"room-1", addrA, .operate, {}, hash0, 100⟩ "prop-9" "ev-9" 5 2000 room0
      (by decide) (by decide) (by decide) (by decide) (by decide)).1
      ⟨prop0, by decide, by decide, by decide, Or.inr (by decide)⟩).1
  · exact ((duplicate_active_proposal ⟨[room0], [{ prop0 with status := .submitted }], []⟩
      ⟨"room-1", addrA, .operate, {}, hash0, 100⟩ "prop-9" "ev-9" 5 2000 room0
      (by decide) (by decide) (by decide) (by decide) (by decide)).2
      (by intro p hmem h1 h2; simp only [List.mem_singleton] at hmem; subst hmem; decide)).1

/-- C8 counterexample: the creation endpoint accepts ANY positive integer
`requiredQuorum` and persists it — here a proposal is created and stored
with `required_quorum = 7`, not 100. -/
theorem required_quorum_not_fixed_counterexample :
    (proposalsPost ⟨[room0], [], []⟩ ⟨"room-1", addrA, .operate, {}, hash0, 7⟩
          "prop-9" "ev-9" 0 1000).1 =
        .ok (newProposalRow ⟨"room-1", addrA, .operate, {}, hash0, 7⟩ "prop-9" 0 1000) 201 ∧
      (newProposalRow ⟨"room-1", addrA, .operate, {}, hash0, 7⟩
          "prop-9" 0 1000).required_quorum = 7 := by
  decide

/-- C8 amended: the creation endpoint persists whatever positive integer
`requiredQuorum` the request carries (the client's `createProposal`
defaults it to 100 at every call site, so client-created proposals store
100, but 100 is not enforced server-side); each of the two fixed-weight
participants contributes exactly 50 units when they sign, two distinct
participants reaching 100. -/
theorem required_quorum_passthrough (s : Store) (body : CreateBody)
    (npid neid : String) (now expAt : Int) (room : Room) (kA kB sigA sigB : String)
    (haddr : isAddress body.actor = true)
    (hq : 0 < body.requiredQuorum)
    (hhash : (strStartsWith body.payloadHash "0x" && strLength body.payloadHash == 66) = true)
    (hroom : s.rooms.find? (fun r => r.id == body.roomId) = some room)
    (hpart : isParticipant room (normalizeAddress body.actor) = true)
    (hnoactive : s.proposals.any (fun p =>
      p.room_id == body.roomId && p.kind == body.kind &&
        (p.status == .pending || p.status == .ready)) = false)
    (hab : normalizeAddress room.participant_a ≠ normalizeAddress room.participant_b)
    (hka : normalizeAddress kA = normalizeAddress room.participant_a)
    (hkb : normalizeAddress kB = normalizeAddress room.participant_b) :
    ((proposalsPost s body npid neid now expAt).1 =
        .ok (newProposalRow body npid now expAt) 201 ∧
      (newProposalRow body npid now expAt).required_quorum = body.requiredQuorum) ∧
      calculateSignedWeight room [] = 0 ∧
      calculateSignedWeight room [(kA, sigA)] = 50 ∧
      calculateSignedWeight room [(kB, sigB)] = 50 ∧
      calculateSignedWeight room [(kA, sigA), (kB, sigB)] = 100 := by
  refine ⟨⟨(proposalsPost_success s body npid neid now expAt room
    haddr hq hhash hroom hpart hnoactive).1, rfl⟩, ?_, ?_, ?_, ?_⟩
  · simp [calculateSignedWeight]
  · simp [calculateSignedWeight, List.contains, hka, Ne.symm hab]
  · simp [calculateSignedWeight, List.contains, hkb, hab]
  · simp [calculateSignedWeight, List.contains, hka, hkb, hab, Ne.symm hab]

/-- Witness for C8's amended theorem: a creation request carrying 100 is
stored with `required_quorum = 100`, and the two participants of `room0`
each contribute 50, together 100. -/
theorem required_quorum_passthrough_witness :
    ((proposalsPost ⟨[room0], [], []⟩ ⟨"room-1", addrA, .operate, {}, hash0, 100⟩
          "prop-9" "ev-9" 0 1000).1 =
        .ok (newProposalRow ⟨"room-1", addrA, .operate, {}, hash0, 100⟩ "prop-9" 0 1000) 201 ∧
      (newProposalRow ⟨"room-1", addrA, .operate, {}, hash0, 100⟩
          "prop-9" 0 1000).required_quorum = 100) ∧
      calculateSignedWeight room0 [] = 0 ∧
      calculateSignedWeight room0 [(addrA, "0xaa11")] = 50 ∧
      calculateSignedWeight room0 [(addrB, "0xbb22")] = 50 ∧
      calculateSignedWeight room0 [(addrA, "0xaa11"), (addrB, "0xbb22")] = 100 := by
  exact required_quorum_passthrough ⟨[room0], [], []⟩
    ⟨"room-1", addrA, .operate, {}, hash0, 100⟩ "prop-9" "ev-9" 0 1000 room0
    addrA addrB "0xaa11" "0xbb22" (by decide) (by decide) (by decide) (by decide)
    (by decide) (by decide) (by decide) (by decide) (by decide)

/-! ## C7: signing an expired proposal -/

/-- C7: a sign attempt on a `pending`/`ready` proposal whose expiry
timestamp is before the current time fails with `Proposal expired`, and
as a side effect first sets the proposal's status to `expired` — so it is
observed as expired afterwards — while leaving its signature map (and the
event log) unchanged. -/
theorem sign_expired (recover : String → String → Except String String)
    (s : Store) (pid wallet sig eid : String) (now : Int) (p : Proposal)
    (haddr : isAddress wallet = true)
    (hhex : isHexString sig = true)
    (hp : s.proposals.find? (fun q => q.id == pid) = some p)
    (hstat : p.status = .pending ∨ p.status = .ready)
    (hexp : p.expires_at < now) :
    (signPost recover s pid wallet sig eid now).1 = .err "Proposal expired" 400 ∧
      (signPost recover s pid wallet sig eid now).2.proposals.find?
          (fun q => q.id == pid) = some { p with status := .expired } ∧
      (signPost recover s pid wallet sig eid now).2.events = s.events := by
  have hterm : (p.status == ProposalStatus.submitted ||
      p.status == ProposalStatus.failed || p.status == ProposalStatus.expired) = false := by
    rcases hstat with h | h <;> simp [h]
  have hpid : p.id = pid := by
    have := List.find?_some hp
    simpa using this
  refine ⟨?_, ?_, ?_⟩
  · simp [signPost, haddr, hhex, hp, hterm, hexp]
  · simp only [signPost, haddr, hhex, hp, hterm, hexp, Bool.not_true,
      Bool.false_eq_true, if_false, if_true, markProposalExpired]
    simp only [hpid]
    rw [find?_id_map_update s.proposals pid
      (fun q => { q with status := .expired }) (fun q => rfl), hp]
    simp [hpid]
  · simp [signPost, haddr, hhex, hp, hterm, hexp, markProposalExpired]

/-- Witness for C7 on `store0` at a time past `prop0`'s expiry. -/
theorem sign_expired_witness :
    (signPost (fun _ _ => .ok addrA) store0 "prop-1" addrA "0xaa11"
          "ev-9" 2000000).1 = .err "Proposal expired" 400 ∧
      (signPost (fun _ _ => .ok addrA) store0 "prop-1" addrA "0xaa11"
            "ev-9" 2000000).2.proposals.find? (fun q => q.id == "prop-1") =
        some { prop0 with status := .expired } := by
  have h := sign_expired (fun _ _ => .ok addrA) store0 "prop-1" addrA "0xaa11"
    "ev-9" 2000000 prop0 (by decide) (by decide) (by decide)
    (Or.inr (by decide)) (by decide)
  exact ⟨h.1, h.2.1⟩

/-! ## C2: terminal statuses under the three mutating endpoints -/

/-- Fixture `prop0` after a successful submission (terminal status). -/
def propSub : Proposal := { prop0 with status := .submitted }

/-- Store fixture with the submitted proposal. -/
def storeSub : Store := { rooms := [room0], proposals := [propSub], events := [] }

/-- The submit route with `outcome: 'failed'` has no status guard: it
flips the found proposal to `failed` and records the error, whatever the
current status is. -/
theorem submitPost_failed_updates (s : Store) (pid wallet msg eid : String)
    (now : Int) (p : Proposal) (room : Room)
    (haddr : isAddress wallet = true)
    (hp : s.proposals.find? (fun q => q.id == pid) = some p)
    (hexp : ¬ p.expires_at < now)
    (hroom : s.rooms.find? (fun r => r.id == p.room_id) = some room)
    (hpart : isParticipant room (normalizeAddress wallet) = true) :
    (submitPost s pid wallet (some .failed) none none (some msg) eid now).1 =
        .ok { p with status := .failed,
                     sdk_result_json := some (.errorResult msg) } ∧
      (submitPost s pid wallet (some .failed) none none (some msg) eid
          now).2.proposals.find? (fun q => q.id == pid) =
        some { p with status := .failed,
                      sdk_result_json := some (.errorResult msg) } := by
  have hpid : p.id = pid := by
    have := List.find?_some hp
    simpa using this
  have hout : (Outcome.failed == Outcome.submitted) = false := rfl
  constructor
  · simp [submitPost, haddr, hp, hexp, hroom, hpart, hout]
  · simp only [submitPost, haddr, Bool.not_true, Bool.false_eq_true, if_false,
      hp, hexp, hroom, hpart, Option.getD_some, hout, Bool.false_and,
      Bool.and_false, if_true]
    simp only [hpid]
    rw [find?_id_map_update s.proposals pid
      (fun q => { q with status := .failed, sdk_result_json := some (.errorResult msg) })
      (fun q => rfl), hp]
    simp [hpid]

/-- C2 counterexample: a proposal in the terminal status `submitted`
(not past expiry) is moved to `failed` by the submit route when called
with `outcome: 'failed'` — a transition out of a terminal state. -/
theorem terminal_not_immutable_counterexample :
    ProposalStatus.isTerminal propSub.status = true ∧
      (submitPost storeSub "prop-1" addrA (some .failed) none none
            (some "boom") "ev-9" 5).2.proposals.find? (fun q => q.id == "prop-1") =
        some { propSub with status := .failed,
                            sdk_result_json := some (.errorResult "boom") } := by
  refine ⟨by decide, ?_⟩
  exact (submitPost_failed_updates storeSub "prop-1" addrA "boom" "ev-9" 5
    propSub room0 (by decide) (by decide) (by decide) (by decide) (by decide)).2

/-- C2 amended: the sign route rejects every terminal proposal without
touching the store (its terminal check runs before its expiry check),
and the expiry sweep's conditional update leaves terminal rows
unchanged; but the submit route mutates terminal proposals on two paths.
First, its expiry precheck runs before any status guard: a proposal past
its expiry timestamp — terminal or not, under either outcome — is
rewritten to `expired` and the call fails with `Proposal expired`, so a
past-expiry `submitted` or `failed` proposal is moved to `expired`.
Second, for proposals not past expiry, applying `outcome: 'submitted'`
(explicit or defaulted) to a terminal proposal fails with the
must-be-ready error without touching the store, but `outcome: 'failed'`
carries no status guard and sets the proposal — terminal or not — to
`failed` with the error recorded.  Terminal statuses are therefore not
immutable through the submit endpoint. -/
theorem terminal_status_transitions :
    (∀ (recover : String → String → Except String String) (s : Store)
        (pid wallet sig eid : String) (now : Int) (p : Proposal),
      isAddress wallet = true → isHexString sig = true →
      s.proposals.find? (fun q => q.id == pid) = some p →
      p.status.isTerminal = true →
      (signPost recover s pid wallet sig eid now).1 =
          .err ("Cannot sign proposal with status " ++ statusText p.status) 400 ∧
        (signPost recover s pid wallet sig eid now).2 = s) ∧
      (∀ (now : Int) (p : Proposal), p.status.isTerminal = true →
        sweepProposal now p = p) ∧
      (∀ (s : Store) (pid wallet eid : String) (now : Int) (p : Proposal)
          (outcome? : Option Outcome) (sdk app err : Option String),
        isAddress wallet = true →
        s.proposals.find? (fun q => q.id == pid) = some p →
        p.expires_at < now →
        (submitPost s pid wallet outcome? sdk app err eid now).1 =
            .err "Proposal expired" 400 ∧
          (submitPost s pid wallet outcome? sdk app err eid
              now).2.proposals.find? (fun q => q.id == pid) =
            some { p with status := .expired }) ∧
      (∀ (s : Store) (pid wallet eid : String) (now : Int) (p : Proposal)
          (room : Room) (outcome? : Option Outcome) (sdk app err : Option String),
        isAddress wallet = true →
        s.proposals.find? (fun q => q.id == pid) = some p →
        ¬ p.expires_at < now →
        s.rooms.find? (fun r => r.id == p.room_id) = some room →
        isParticipant room (normalizeAddress wallet) = true →
        p.status.isTerminal = true →
        (outcome? = none ∨ outcome? = some Outcome.submitted) →
        (submitPost s pid wallet outcome? sdk app err eid now).1 =
            .err ("Proposal must be ready before submission. Current status: " ++
              statusText p.status) 400 ∧
          (submitPost s pid wallet outcome? sdk app err eid now).2 = s) ∧
      (∀ (s : Store) (pid wallet msg eid : String) (now : Int) (p : Proposal)
          (room : Room),
        isAddress wallet = true →
        s.proposals.find? (fun q => q.id == pid) = some p →
        ¬ p.expires_at < now →
        s.rooms.find? (fun r => r.id == p.room_id) = some room →
        isParticipant room (normalizeAddress wallet) = true →
        (submitPost s pid wallet (some .failed) none none (some msg) eid
            now).2.proposals.find? (fun q => q.id == pid) =
          some { p with status := .failed,
                        sdk_result_json := some (.errorResult msg) }) := by
  refine ⟨?_, ?_, ?_, ?_, ?_⟩
  · intro recover s pid wallet sig eid now p haddr hhex hp hterm
    have hcond : (p.status == ProposalStatus.submitted ||
        p.status == ProposalStatus.failed ||
        p.status == ProposalStatus.expired) = true := by
      cases h : p.status <;> rw [h] at hterm <;>
        simp_all [ProposalStatus.isTerminal]
    constructor <;> simp [signPost, haddr, hhex, hp, hcond]
  · intro now p hterm
    have hcond : (p.status == ProposalStatus.pending ||
        p.status == ProposalStatus.ready) = false := by
      cases h : p.status <;> rw [h] at hterm <;>
        simp_all [ProposalStatus.isTerminal]
    simp [sweepProposal, sweepMatches, hcond]
  · intro s pid wallet eid now p outcome? sdk app err haddr hp hexp
    have hpid : p.id = pid := by
      have := List.find?_some hp
      simpa using this
    constructor
    · simp [submitPost, haddr, hp, hexp]
    · simp only [submitPost, haddr, Bool.not_true, Bool.false_eq_true, if_false,
        hp, hexp, if_true, markProposalExpired]
      simp only [hpid]
      rw [find?_id_map_update s.proposals pid
        (fun q => { q with status := .expired }) (fun q => rfl), hp]
      simp [hpid]
  · intro s pid wallet eid now p room outcome? sdk app err haddr hp hexp hroom
      hpart hterm hout
    have hnotready : (p.status == ProposalStatus.ready) = false := by
      cases h : p.status <;> rw [h] at hterm <;>
        simp_all [ProposalStatus.isTerminal]
    rcases hout with h | h <;> subst h <;>
      constructor <;>
        simp [submitPost, haddr, hp, hexp, hroom, hpart, hnotready]
  · intro s pid wallet msg eid now p room haddr hp hexp hroom hpart
    exact (submitPost_failed_updates s pid wallet msg eid now p room
      haddr hp hexp hroom hpart).2

/-- Witness for C2's amended theorem on the submitted proposal fixture:
sign rejects it, the sweep leaves it unchanged, a past-expiry submitted
proposal is rewritten to `expired` (not `failed`) under outcome failed,
a defaulted submitted outcome before expiry rejects it, and a failed
outcome before expiry moves it to `failed`. -/
theorem terminal_status_transitions_witness :
    (signPost (fun _ _ => .ok addrA) storeSub "prop-1" addrA "0xaa11"
          "ev-9" 5).1 = .err "Cannot sign proposal with status submitted" 400 ∧
      sweepProposal 5 propSub = propSub ∧
      ((submitPost storeSub "prop-1" addrA (some .failed) none none
            (some "boom") "ev-9" 2000000).1 = .err "Proposal expired" 400 ∧
        (submitPost storeSub "prop-1" addrA (some .failed) none none
              (some "boom") "ev-9" 2000000).2.proposals.find?
            (fun q => q.id == "prop-1") =
          some { propSub with status := .expired }) ∧
      (submitPost storeSub "prop-1" addrA none none none none "ev-9" 5).1 =
        .err "Proposal must be ready before submission. Current status: submitted" 400 ∧
      (submitPost storeSub "prop-1" addrA (some .failed) none none
            (some "boom") "ev-9" 5).2.proposals.find? (fun q => q.id == "prop-1") =
        some { propSub with status := .failed,
                            sdk_result_json := some (.errorResult "boom") } := by
  have h := terminal_status_transitions
  refine ⟨?_, h.2.1 5 propSub (by decide), ?_, ?_, ?_⟩
  · exact (h.1 (fun _ _ => .ok addrA) storeSub "prop-1" addrA "0xaa11" "ev-9" 5
      propSub (by decide) (by decide) (by decide) (by decide)).1
  · exact h.2.2.1 storeSub "prop-1" addrA "ev-9" 2000000 propSub (some .failed)
      none none (some "boom") (by decide) (by decide) (by decide)
  · exact (h.2.2.2.1 storeSub "prop-1" addrA "ev-9" 5 propSub room0 none
      none none none (by decide) (by decide) (by decide) (by decide) (by decide)
      (by decide) (Or.inl rfl)).1
  · exact h.2.2.2.2 storeSub "prop-1" addrA "boom" "ev-9" 5 propSub room0
      (by decide) (by decide) (by decide) (by decide) (by decide)

/-! ## C4: idempotent signing -/

/-- Lookup `recordGet` skips a non-matching head entry. -/
theorem recordGet_cons_of_ne (kv : String × String) (t : List (String × String))
    (k : String) (h : (kv.1 == k) = false) :
    recordGet (kv :: t) k = recordGet t k := by
  simp [recordGet, List.find?_cons, h]

/-- Lookup `recordGet` returns a matching head entry. -/
theorem recordGet_cons_of_eq (kv : String × String) (t : List (String × String))
    (k : String) (h : (kv.1 == k) = true) :
    recordGet (kv :: t) k = some kv.2 := by
  simp [recordGet, List.find?_cons, h]

/-- Overwriting the key `k` in place makes `recordGet k` read the new
value, provided some entry matches. -/
theorem recordGet_map_set_of_any (m : List (String × String)) (k v : String)
    (hany : m.any (fun kv => kv.1 == k) = true) :
    recordGet (m.map (fun kv => if kv.1 == k then (k, v) else kv)) k = some v := by
  induction m with
  | nil => simp at hany
  | cons kv rest ih =>
    rw [List.map_cons]
    by_cases h : (kv.1 == k) = true
    · rw [if_pos h]
      rw [recordGet_cons_of_eq ((k, v)) _ k (by simp)]
    · have h' : (kv.1 == k) = false := by
        cases hb : kv.1 == k
        · rfl
        · exact absurd hb h
      rw [if_neg (by simp [h'])]
      rw [recordGet_cons_of_ne kv _ k h']
      apply ih
      simp only [List.any_cons, h', Bool.false_or] at hany
      exact hany

/-- Appending a fresh `(k, v)` entry makes `recordGet k` read `v` when no
earlier entry matches. -/
theorem recordGet_append_single (m : List (String × String)) (k v : String)
    (hnone : ∀ kv ∈ m, (kv.1 == k) = false) :
    recordGet (m ++ [(k, v)]) k = some v := by
  induction m with
  | nil => simp [recordGet, List.find?_cons]
  | cons kv rest ih =>
    rw [List.cons_append,
      recordGet_cons_of_ne kv _ k (hnone kv (List.mem_cons_self kv rest))]
    exact ih (fun x hx => hnone x (List.mem_cons_of_mem kv hx))

/-- After a JS assignment `m[k] = v`, reading `m[k]` yields `v`. -/
theorem recordGet_recordSet_self (m : List (String × String)) (k v : String) :
    recordGet (recordSet m k v) k = some v := by
  unfold recordSet
  by_cases hany : m.any (fun kv => kv.1 == k) = true
  · rw [if_pos hany]
    exact recordGet_map_set_of_any m k v hany
  · have hany' : m.any (fun kv => kv.1 == k) = false := by
      cases hb : m.any (fun kv => kv.1 == k)
      · rfl
      · exact absurd hb hany
    rw [if_neg (by simp [hany'])]
    apply recordGet_append_single
    intro kv hkv
    have := List.any_eq_false.mp hany' kv hkv
    cases hb : kv.1 == k
    · rfl
    · exact absurd hb this

/-- A string passing the sign route's hex check is non-empty. -/
theorem isHexString_ne_empty (s : String) (h : isHexString s = true) :
    (s == "") = false := by
  cases heq : s == ""
  · rfl
  · exfalso
    have hs : s = "" := by simpa using heq
    rw [hs] at h
    exact absurd h (by decide)

/-- A conditional update applied twice equals the update applied once,
when the update is idempotent on matching rows and preserves matching. -/
theorem map_update_idem {α : Type} (l : List α) (pred : α → Bool) (g : α → α)
    (hgg : ∀ x, pred x = true → g (g x) = g x)
    (hg : ∀ x, pred x = true → pred (g x) = true) :
    ((l.map (fun x => if pred x then g x else x)).map
        (fun x => if pred x then g x else x)) =
      l.map (fun x => if pred x then g x else x) := by
  rw [List.map_map]
  apply List.map_congr_left
  intro x _
  by_cases h : pred x = true
  · simp only [Function.comp, h, if_true]
    rw [if_pos (hg x h), hgg x h]
  · simp only [Bool.not_eq_true] at h
    simp [Function.comp, h]

/-- Success path of the sign route: with a signable, unexpired proposal,
a participating wallet and a signature that recovers to that wallet, the
route inserts the signature if the wallet has none yet, recomputes the
weight, and persists `ready` iff the weight reaches the quorum. -/
theorem signPost_success (recover : String → String → Except String String)
    (s : Store) (pid wallet sig eid : String) (now : Int) (p : Proposal)
    (room : Room) (raw rec : String)
    (haddr : isAddress wallet = true)
    (hhex : isHexString sig = true)
    (hp : s.proposals.find? (fun q => q.id == pid) = some p)
    (hterm : (p.status == ProposalStatus.submitted ||
      p.status == ProposalStatus.failed ||
      p.status == ProposalStatus.expired) = false)
    (hexp : ¬ p.expires_at < now)
    (hroom : s.rooms.find? (fun r => r.id == p.room_id) = some room)
    (hpart : isParticipant room (normalizeAddress wallet) = true)
    (hstrip : stripWalletQuorumPrefix sig = some raw)
    (hrec : recover p.payload_hash raw = .ok rec)
    (hmatch : normalizeAddress rec = normalizeAddress wallet) :
    (signPost recover s pid wallet sig eid now).1 =
        .ok { p with
                signatures_json :=
                  if jsFalsyStr (recordGet p.signatures_json (normalizeAddress wallet)) then
                    recordSet p.signatures_json (normalizeAddress wallet) sig
                  else p.signatures_json
                status :=
                  if p.required_quorum ≤
                      (calculateSignedWeight room
                        (if jsFalsyStr (recordGet p.signatures_json (normalizeAddress wallet)) then
                          recordSet p.signatures_json (normalizeAddress wallet) sig
                        else p.signatures_json) : Int) then
                    ProposalStatus.ready
                  else ProposalStatus.pending }
          (calculateSignedWeight room
            (if jsFalsyStr (recordGet p.signatures_json (normalizeAddress wallet)) then
              recordSet p.signatures_json (normalizeAddress wallet) sig
            else p.signatures_json)) ∧
      (signPost recover s pid wallet sig eid now).2.proposals =
        s.proposals.map (fun q =>
          if q.id == pid then
            { q with
                signatures_json :=
                  if jsFalsyStr (recordGet p.signatures_json (normalizeAddress wallet)) then
                    recordSet p.signatures_json (normalizeAddress wallet) sig
                  else p.signatures_json
                status :=
                  if p.required_quorum ≤
                      (calculateSignedWeight room
                        (if jsFalsyStr (recordGet p.signatures_json (normalizeAddress wallet)) then
                          recordSet p.signatures_json (normalizeAddress wallet) sig
                        else p.signatures_json) : Int) then
                    ProposalStatus.ready
                  else ProposalStatus.pending }
          else q) ∧
      (signPost recover s pid wallet sig eid now).2.rooms = s.rooms := by
  have hpid : p.id = pid := by
    have := List.find?_some hp
    simpa using this
  have hmatch' : (normalizeAddress rec == normalizeAddress wallet) = true := by
    simp [hmatch]
  refine ⟨?_, ?_, ?_⟩ <;>
    simp only [signPost, haddr, hhex, Bool.not_true, Bool.false_eq_true, if_false,
      hp, hterm, hexp, if_true, hroom, hpart, hstrip, hrec, hmatch', hpid]

/-- C4: for a non-expired `pending`/`ready` proposal and a room
participant whose signatures verify, signing a second time with the same
actor succeeds and returns exactly the proposal state (signature map,
weight, status) of the first call, and the proposals table is unchanged
by the second call: the stored signature is not replaced and the weight
does not change. -/
theorem sign_idempotent (recover : String → String → Except String String)
    (s : Store) (pid wallet sig sig2 eid eid2 : String) (now now2 : Int)
    (p : Proposal) (room : Room) (raw rec raw2 rec2 : String)
    (haddr : isAddress wallet = true)
    (hhex : isHexString sig = true) (hhex2 : isHexString sig2 = true)
    (hp : s.proposals.find? (fun q => q.id == pid) = some p)
    (hstat : p.status = .pending ∨ p.status = .ready)
    (hexp : ¬ p.expires_at < now) (hexp2 : ¬ p.expires_at < now2)
    (hroom : s.rooms.find? (fun r => r.id == p.room_id) = some room)
    (hpart : isParticipant room (normalizeAddress wallet) = true)
    (hstrip : stripWalletQuorumPrefix sig = some raw)
    (hrec : recover p.payload_hash raw = .ok rec)
    (hmatch : normalizeAddress rec = normalizeAddress wallet)
    (hstrip2 : stripWalletQuorumPrefix sig2 = some raw2)
    (hrec2 : recover p.payload_hash raw2 = .ok rec2)
    (hmatch2 : normalizeAddress rec2 = normalizeAddress wallet) :
    ∃ p1 w1,
      (signPost recover s pid wallet sig eid now).1 = .ok p1 w1 ∧
        (signPost recover (signPost recover s pid wallet sig eid now).2
            pid wallet sig2 eid2 now2).1 = .ok p1 w1 ∧
        (signPost recover (signPost recover s pid wallet sig eid now).2
            pid wallet sig2 eid2 now2).2.proposals =
          (signPost recover s pid wallet sig eid now).2.proposals := by
  have hterm : (p.status == ProposalStatus.submitted ||
      p.status == ProposalStatus.failed ||
      p.status == ProposalStatus.expired) = false := by
    rcases hstat with h | h <;> simp [h]
  obtain ⟨h1a, h1b, h1c⟩ := signPost_success recover s pid wallet sig eid now
    p room raw rec haddr hhex hp hterm hexp hroom hpart hstrip hrec hmatch
  set W := normalizeAddress wallet with hW
  set sigs1 := if jsFalsyStr (recordGet p.signatures_json W) then
      recordSet p.signatures_json W sig
    else p.signatures_json with hsigs1
  set w1 := calculateSignedWeight room sigs1 with hw1
  set st1 := if p.required_quorum ≤ (w1 : Int) then ProposalStatus.ready
    else ProposalStatus.pending with hst1
  have hfalsy : jsFalsyStr (recordGet sigs1 W) = false := by
    rw [hsigs1]
    by_cases hjs : jsFalsyStr (recordGet p.signatures_json W) = true
    · rw [if_pos hjs, recordGet_recordSet_self]
      simp only [jsFalsyStr]
      exact isHexString_ne_empty sig hhex
    · have hjs' : jsFalsyStr (recordGet p.signatures_json W) = false := by
        cases hb : jsFalsyStr (recordGet p.signatures_json W)
        · rfl
        · exact absurd hb hjs
      rw [if_neg (by simp [hjs'])]
      exact hjs'
  have hp2 : (signPost recover s pid wallet sig eid now).2.proposals.find?
      (fun q => q.id == pid) =
      some { p with signatures_json := sigs1, status := st1 } := by
    rw [h1b, find?_id_map_update s.proposals pid
      (fun q => { q with signatures_json := sigs1, status := st1 })
      (fun q => rfl), hp]
    rfl
  have hterm2 : (({ p with signatures_json := sigs1, status := st1 } : Proposal).status ==
      ProposalStatus.submitted ||
      ({ p with signatures_json := sigs1, status := st1 } : Proposal).status ==
        ProposalStatus.failed ||
      ({ p with signatures_json := sigs1, status := st1 } : Proposal).status ==
        ProposalStatus.expired) = false := by
    show (st1 == ProposalStatus.submitted || st1 == ProposalStatus.failed ||
      st1 == ProposalStatus.expired) = false
    rw [hst1]
    by_cases hq : p.required_quorum ≤ (w1 : Int)
    · rw [if_pos hq]
      rfl
    · rw [if_neg hq]
      rfl
  have hroom2 : (signPost recover s pid wallet sig eid now).2.rooms.find?
      (fun r => r.id ==
        ({ p with signatures_json := sigs1, status := st1 } : Proposal).room_id) =
      some room := by
    rw [h1c]
    exact hroom
  obtain ⟨h2a, h2b, h2c⟩ := signPost_success recover
    (signPost recover s pid wallet sig eid now).2 pid wallet sig2 eid2 now2
    { p with signatures_json := sigs1, status := st1 } room raw2 rec2
    haddr hhex2 hp2 hterm2 (by exact hexp2) hroom2 hpart hstrip2
    (by exact hrec2) hmatch2
  simp only [hfalsy, Bool.false_eq_true, if_false] at h2a h2b
  refine ⟨{ p with signatures_json := sigs1, status := st1 }, w1, h1a, ?_, ?_⟩
  · rw [h2a]
  · rw [h2b, h1b]
    exact map_update_idem s.proposals (fun q => q.id == pid)
      (fun q => { q with signatures_json := sigs1, status := st1 })
      (fun x _ => rfl) (fun x h => h)

/-- A fresh `pending` proposal fixture with an empty signature map. -/
def propPend : Proposal :=
  { prop0 with
      id := "prop-3"
      status := .pending
      signatures_json := [] }

/-- Store fixture with the pending proposal. -/
def storePend : Store := { rooms := [room0], proposals := [propPend], events := [] }

/-- Witness for C4 on `storePend`: participant A signs twice with a
recoverer that confirms A's signature; both calls agree and the second
leaves the proposals table unchanged. -/
theorem sign_idempotent_witness :
    ∃ p1 w1,
      (signPost (fun _ _ => .ok addrA) storePend "prop-3" addrA "0xaa11"
          "ev-1" 5).1 = .ok p1 w1 ∧
        (signPost (fun _ _ => .ok addrA)
            (signPost (fun _ _ => .ok addrA) storePend "prop-3" addrA "0xaa11"
              "ev-1" 5).2 "prop-3" addrA "0xaa11" "ev-2" 6).1 = .ok p1 w1 ∧
        (signPost (fun _ _ => .ok addrA)
            (signPost (fun _ _ => .ok addrA) storePend "prop-3" addrA "0xaa11"
              "ev-1" 5).2 "prop-3" addrA "0xaa11" "ev-2" 6).2.proposals =
          (signPost (fun _ _ => .ok addrA) storePend "prop-3" addrA "0xaa11"
            "ev-1" 5).2.proposals :=
  sign_idempotent (fun _ _ => .ok addrA) storePend "prop-3" addrA "0xaa11"
    "0xaa11" "ev-1" "ev-2" 5 6 propPend room0 "0xaa11" addrA "0xaa11" addrA
    (by decide) (by decide) (by decide) (by decide) (Or.inl (by decide))
    (by decide) (by decide) (by decide) (by decide) (by decide) rfl
    (by decide) (by decide) rfl (by decide)
